import Mathlib

/-!
Verification of the uuid resolver of `meilisearch-http`
(`src/index_controller/uuid_resolver.rs`).

The resolver actor owns a `HeedUuidStore`: a single heed database mapping
index names (strings) to uuids.  Keys in a heed database are unique, so we
embed the database as an association list `List (String × Uuid)` whose
reachable states have pairwise distinct keys; `dbGet`, `dbPut` and
`dbDelete` embed `db.get`, `db.put` and `db.delete` of a committed write
transaction.  Uuids are 128-bit values treated as a black box; we embed them as `Nat`.
The random uuid minted by `Uuid::new_v4()` inside `create_uuid` is passed
in explicitly as the `fresh` argument.  Infrastructure failures (heed I/O
errors, tokio join errors) are outside the embedding.
-/

set_option autoImplicit false

namespace UuidResolver

/-- Uuids are identifiers whose internal structure is never inspected; embedded as `Nat`. -/
abbrev Uuid := Nat

/-- The persisted mapping of the `HeedUuidStore`: the contents of its single
heed database, as an association list from index name to uuid. -/
abbrev Store := List (String × Uuid)

/-- `db.get(&txn, &name)`: the value of the first (in a reachable state,
only) entry whose key is `name`. -/
def dbGet (db : Store) (name : String) : Option Uuid :=
  match db with
  | [] => none
  | e :: rest => if e.1 == name then some e.2 else dbGet rest name

/-- `db.put(&mut txn, &name, uuid)`: overwrite the entry for `name`, or
append a new entry when the key is absent. -/
def dbPut (db : Store) (name : String) (u : Uuid) : Store :=
  match db with
  | [] => [(name, u)]
  | e :: rest => if e.1 == name then (name, u) :: rest else e :: dbPut rest name u

/-- `db.delete(&mut txn, &name)`: remove the entry whose key is `name`. -/
def dbDelete (db : Store) (name : String) : Store :=
  match db with
  | [] => []
  | e :: rest => if e.1 == name then rest else e :: dbDelete rest name

/-- The error type `UuidError` (infrastructure variants `TokioTask`, `Heed`
and `Uuid` are outside the embedding). -/
inductive UuidError
  | NameAlreadyExist
  | UnexistingIndex (name : String)
  | BadlyFormatted (name : String)
deriving DecidableEq

/-- `is_index_uid_valid`: every character of `uid` is ASCII alphanumeric,
a hyphen, or an underscore.  (`all` on the empty string is `true`.) -/
def is_index_uid_valid (uid : String) : Bool :=
  uid.toList.all (fun x => x.isAlphanum || x == '-' || x == '_')

namespace HeedUuidStore

/-- `HeedUuidStore::create_uuid(name, err)`: inside one write transaction,
if `name` is present either report `NameAlreadyExist` (when `err`) or
return the stored uuid; otherwise store and return the minted uuid
`fresh` (the result of `Uuid::new_v4()`). -/
def create_uuid (db : Store) (name : String) (err : Bool) (fresh : Uuid) :
    Except UuidError Uuid × Store :=
  match dbGet db name with
  | some uuid =>
      if err then (Except.error UuidError.NameAlreadyExist, db)
      else (Except.ok uuid, db)
  | none => (Except.ok fresh, dbPut db name fresh)

/-- `HeedUuidStore::get_uuid(name)`: a read transaction; look the name up
and leave the database untouched. -/
def get_uuid (db : Store) (name : String) : Option Uuid :=
  dbGet db name

/-- `HeedUuidStore::delete(uid)`: inside one write transaction, if `uid` is
present delete its entry and return the stored uuid, otherwise return
`none` without writing. -/
def delete (db : Store) (uid : String) : Option Uuid × Store :=
  match dbGet db uid with
  | some uuid => (some uuid, dbDelete db uid)
  | none => (none, db)

/-- `HeedUuidStore::list()`: a read transaction; return every entry and
leave the database untouched. -/
def list (db : Store) : List (String × Uuid) :=
  db

/-- `HeedUuidStore::insert(name, uuid)`: inside one write transaction,
unconditionally `put` the pair and commit. -/
def insert (db : Store) (name : String) (u : Uuid) : Store :=
  dbPut db name u

end HeedUuidStore

namespace UuidResolverActor

/-- `UuidResolverActor::handle_create(uid)`: reject an invalid name with
`BadlyFormatted` before touching the store, otherwise run
`create_uuid(uid, true)`. -/
def handle_create (db : Store) (uid : String) (fresh : Uuid) :
    Except UuidError Uuid × Store :=
  if !is_index_uid_valid uid then (Except.error (UuidError.BadlyFormatted uid), db)
  else HeedUuidStore.create_uuid db uid true fresh

/-- `UuidResolverActor::handle_get(uid)`: `get_uuid`, turning `None` into
`UnexistingIndex(uid)`.  A read-only operation. -/
def handle_get (db : Store) (uid : String) : Except UuidError Uuid :=
  match HeedUuidStore.get_uuid db uid with
  | some u => Except.ok u
  | none => Except.error (UuidError.UnexistingIndex uid)

/-- `UuidResolverActor::handle_delete(uid)`: `delete`, turning `None` into
`UnexistingIndex(uid)`. -/
def handle_delete (db : Store) (uid : String) : Except UuidError Uuid × Store :=
  match HeedUuidStore.delete db uid with
  | (some u, db2) => (Except.ok u, db2)
  | (none, db2) => (Except.error (UuidError.UnexistingIndex uid), db2)

/-- `UuidResolverActor::handle_list()`: return the listing; read-only. -/
def handle_list (db : Store) : Except UuidError (List (String × Uuid)) :=
  Except.ok (HeedUuidStore.list db)

/-- `UuidResolverActor::handle_insert(uid, uuid)`: reject an invalid name
with `BadlyFormatted` before touching the store, otherwise `insert`. -/
def handle_insert (db : Store) (uid : String) (u : Uuid) :
    Except UuidError Unit × Store :=
  if !is_index_uid_valid uid then (Except.error (UuidError.BadlyFormatted uid), db)
  else (Except.ok (), HeedUuidStore.insert db uid u)

end UuidResolverActor

/-- One message of `UuidResolveMsg`, as received by the actor loop. -/
inductive Msg
  | create (uid : String)
  | get (uid : String)
  | delete (uid : String)
  | list
  | insert (uid : String) (u : Uuid)

/-- The store after the actor processes one message (`UuidResolverActor::run`
handles messages one at a time; `fresh` is the uuid `Uuid::new_v4()` would
mint if the message is a successful `Create`).  `Get` and `List` run
read-only transactions and leave the store as it was. -/
def step (db : Store) (fresh : Uuid) : Msg → Store
  | Msg.create uid => (UuidResolverActor.handle_create db uid fresh).2
  | Msg.get _ => db
  | Msg.delete uid => (UuidResolverActor.handle_delete db uid).2
  | Msg.list => db
  | Msg.insert uid u => (UuidResolverActor.handle_insert db uid u).2

/-- The store after a sequence of messages, each paired with the uuid its
`Create` would mint. -/
def run (db : Store) : List (Msg × Uuid) → Store
  | [] => db
  | (m, fresh) :: rest => run (step db fresh m) rest

/-- Keys of reachable stores are pairwise distinct (heed database keys are
unique). -/
def WellFormed (db : Store) : Prop :=
  (db.map Prod.fst).Nodup

/-- The mapping is injective: no two entries share a uuid unless they share
the name. -/
def StoreInjective (db : Store) : Prop :=
  ∀ p ∈ db, ∀ q ∈ db, p.2 = q.2 → p.1 = q.1

instance (db : Store) : Decidable (StoreInjective db) := by
  unfold StoreInjective; infer_instance

instance (db : Store) : Decidable (WellFormed db) := by
  unfold WellFormed; infer_instance

end UuidResolver

namespace UuidResolver

theorem dbGet_dbPut_same (db : Store) (n : String) (u : Uuid) :
    dbGet (dbPut db n u) n = some u := by
  induction db with
  | nil => simp [dbPut, dbGet]
  | cons e rest ih =>
    by_cases h : e.1 = n
    · simp [dbPut, dbGet, h]
    · simp [dbPut, dbGet, h, ih]

theorem dbGet_dbPut_other (db : Store) (n m : String) (u : Uuid) (hm : m ≠ n) :
    dbGet (dbPut db n u) m = dbGet db m := by
  induction db with
  | nil => simp [dbPut, dbGet, Ne.symm hm]
  | cons e rest ih =>
    by_cases h : e.1 = n
    · simp [dbPut, dbGet, h, Ne.symm hm]
    · simp [dbPut, dbGet, h, ih]

theorem dbGet_dbDelete_other (db : Store) (n m : String) (hm : m ≠ n) :
    dbGet (dbDelete db n) m = dbGet db m := by
  induction db with
  | nil => simp [dbDelete]
  | cons e rest ih =>
    by_cases h : e.1 = n
    · simp [dbDelete, dbGet, h, Ne.symm hm]
    · simp [dbDelete, dbGet, h, ih]

theorem dbGet_eq_none (db : Store) (n : String)
    (h : ∀ u, (n, u) ∉ db) : dbGet db n = none := by
  induction db with
  | nil => simp [dbGet]
  | cons e rest ih =>
    have hne : e.1 ≠ n := by
      intro heq
      exact h e.2 (by simp [← heq])
    simp [dbGet, hne]
    exact ih (fun u hu => h u (List.mem_cons_of_mem e hu))

theorem wellFormed_cons_iff (e : String × Uuid) (rest : Store) :
    WellFormed (e :: rest) ↔ (∀ u, (e.1, u) ∉ rest) ∧ WellFormed rest := by
  unfold WellFormed
  rw [List.map_cons, List.nodup_cons]
  constructor
  · rintro ⟨h1, h2⟩
    exact ⟨fun u hu => h1 (List.mem_map.mpr ⟨(e.1, u), hu, rfl⟩), h2⟩
  · rintro ⟨h1, h2⟩
    refine ⟨fun hmem => ?_, h2⟩
    obtain ⟨p, hp, hp1⟩ := List.mem_map.mp hmem
    refine h1 p.2 ?_
    rw [← hp1]
    simpa using hp

theorem dbGet_dbDelete_same (db : Store) (n : String) (hwf : WellFormed db) :
    dbGet (dbDelete db n) n = none := by
  induction db with
  | nil => simp [dbDelete, dbGet]
  | cons e rest ih =>
    obtain ⟨he, hrest⟩ := (wellFormed_cons_iff e rest).mp hwf
    by_cases h : e.1 = n
    · rw [show dbDelete (e :: rest) n = rest from by simp [dbDelete, h]]
      exact dbGet_eq_none rest n (fun u hu => he u (by rw [h]; exact hu))
    · simp [dbDelete, dbGet, h, ih hrest]

theorem dbDelete_sublist (db : Store) (n : String) :
    List.Sublist (dbDelete db n) db := by
  induction db with
  | nil => simp [dbDelete]
  | cons e rest ih =>
    by_cases h : e.1 = n
    · simp [dbDelete, h]
    · simp [dbDelete, h]
      exact ih

theorem mem_dbDelete {p : String × Uuid} {db : Store} {n : String}
    (h : p ∈ dbDelete db n) : p ∈ db :=
  (dbDelete_sublist db n).subset h

theorem mem_dbPut {p : String × Uuid} {db : Store} {n : String} {u : Uuid}
    (h : p ∈ dbPut db n u) : p = (n, u) ∨ p ∈ db := by
  induction db with
  | nil => simpa [dbPut] using h
  | cons e rest ih =>
    by_cases he : e.1 = n
    · simp [dbPut, he] at h
      rcases h with h | h
      · exact Or.inl h
      · exact Or.inr (List.mem_cons_of_mem e h)
    · simp [dbPut, he] at h
      rcases h with h | h
      · exact Or.inr (h ▸ List.mem_cons_self e rest)
      · rcases ih h with h2 | h2
        · exact Or.inl h2
        · exact Or.inr (List.mem_cons_of_mem e h2)

theorem wellFormed_dbPut (db : Store) (n : String) (u : Uuid)
    (h : WellFormed db) : WellFormed (dbPut db n u) := by
  induction db with
  | nil =>
    unfold WellFormed
    simp [dbPut]
  | cons e rest ih =>
    obtain ⟨he, hrest⟩ := (wellFormed_cons_iff e rest).mp h
    by_cases hn : e.1 = n
    · rw [show dbPut (e :: rest) n u = (n, u) :: rest from by simp [dbPut, hn]]
      exact (wellFormed_cons_iff (n, u) rest).mpr ⟨fun v => hn ▸ he v, hrest⟩
    · rw [show dbPut (e :: rest) n u = e :: dbPut rest n u from by simp [dbPut, hn]]
      refine (wellFormed_cons_iff e (dbPut rest n u)).mpr ⟨fun v hv => ?_, ih hrest⟩
      rcases mem_dbPut hv with h2 | h2
      · exact hn (congrArg Prod.fst h2)
      · exact he v h2

theorem wellFormed_dbDelete (db : Store) (n : String)
    (h : WellFormed db) : WellFormed (dbDelete db n) := by
  unfold WellFormed at h ⊢
  exact List.Nodup.sublist (List.Sublist.map Prod.fst (dbDelete_sublist db n)) h

theorem is_index_uid_valid_eq_false_of_bad_char (name : String) (c : Char)
    (hc : c ∈ name.toList) (h1 : c.isAlphanum = false) (h2 : c ≠ '-') (h3 : c ≠ '_') :
    is_index_uid_valid name = false := by
  unfold is_index_uid_valid
  rw [Bool.eq_false_iff]
  intro hall
  rw [List.all_eq_true] at hall
  have := hall c hc
  simp [h1, h2, h3] at this

end UuidResolver

namespace UuidResolver

theorem storeInjective_dbPut_fresh (db : Store) (n : String) (fresh : Uuid)
    (hinj : StoreInjective db) (hfresh : ∀ p ∈ db, p.2 ≠ fresh) :
    StoreInjective (dbPut db n fresh) := by
  intro p hp q hq hpq
  rcases mem_dbPut hp with hp1 | hp1 <;> rcases mem_dbPut hq with hq1 | hq1
  · rw [hp1, hq1]
  · have : q.2 = fresh := by
      rw [← hpq, hp1]
    exact absurd this (hfresh q hq1)
  · have : p.2 = fresh := by
      rw [hpq, hq1]
    exact absurd this (hfresh p hp1)
  · exact hinj p hp1 q hq1 hpq

theorem storeInjective_dbDelete (db : Store) (n : String)
    (hinj : StoreInjective db) : StoreInjective (dbDelete db n) :=
  fun p hp q hq hpq => hinj p (mem_dbDelete hp) q (mem_dbDelete hq) hpq

theorem wellFormed_step (db : Store) (fresh : Uuid) (m : Msg)
    (h : WellFormed db) : WellFormed (step db fresh m) := by
  cases m with
  | create uid =>
    by_cases hv : is_index_uid_valid uid
    · cases hg : dbGet db uid with
      | some u0 =>
        simpa [step, UuidResolverActor.handle_create, hv,
               HeedUuidStore.create_uuid, hg] using h
      | none =>
        simpa [step, UuidResolverActor.handle_create, hv,
               HeedUuidStore.create_uuid, hg] using wellFormed_dbPut db uid fresh h
    · simpa [step, UuidResolverActor.handle_create, hv] using h
  | get uid => exact h
  | delete uid =>
    cases hg : dbGet db uid with
    | some u0 =>
      simpa [step, UuidResolverActor.handle_delete, HeedUuidStore.delete, hg]
        using wellFormed_dbDelete db uid h
    | none =>
      simpa [step, UuidResolverActor.handle_delete, HeedUuidStore.delete, hg] using h
  | list => exact h
  | insert uid u =>
    by_cases hv : is_index_uid_valid uid
    · simpa [step, UuidResolverActor.handle_insert, hv, HeedUuidStore.insert]
        using wellFormed_dbPut db uid u h
    · simpa [step, UuidResolverActor.handle_insert, hv] using h

theorem wellFormed_run (db : Store) (msgs : List (Msg × Uuid))
    (h : WellFormed db) : WellFormed (run db msgs) := by
  induction msgs generalizing db with
  | nil => exact h
  | cons pm rest ih =>
    obtain ⟨m, fresh⟩ := pm
    simpa [run] using ih (step db fresh m) (wellFormed_step db fresh m h)

end UuidResolver

namespace UuidResolver

/-- Claim C1, counterexample: the claim states that the empty string fails
validity and that `create("")` fails with `BadlyFormatted`; in the code
`is_index_uid_valid` is a universally quantified character test, vacuously
true on `""`, so `create("")` on an empty store succeeds and registers the
empty name. -/
theorem C1_counterexample_empty_name :
    UuidResolverActor.handle_create [] "" 0 = (Except.ok 0, [("", 0)]) ∧
    (UuidResolverActor.handle_create [] "" 0).1
      ≠ Except.error (UuidError.BadlyFormatted "") := by
  refine ⟨rfl, ?_⟩
  intro h
  rw [show (UuidResolverActor.handle_create [] "" 0).1 = Except.ok 0 from rfl] at h
  exact Except.noConfusion h

/-- Claim C1 (amended): for every name containing a character that is not
ASCII alphanumeric, a hyphen or an underscore, `create(name)` fails with
`BadlyFormatted` and leaves the store unchanged; the empty string passes
the validity check, so `create("")` does not fail with `BadlyFormatted`
(on an empty store it succeeds). -/
theorem C1_create_rejects_bad_char (name : String) (c : Char) (hc : c ∈ name.toList)
    (h1 : c.isAlphanum = false) (h2 : c ≠ '-') (h3 : c ≠ '_')
    (db : Store) (fresh : Uuid) :
    UuidResolverActor.handle_create db name fresh
      = (Except.error (UuidError.BadlyFormatted name), db) ∧
    (UuidResolverActor.handle_create [] "" 0).1 = Except.ok 0 := by
  have hval := is_index_uid_valid_eq_false_of_bad_char name c hc h1 h2 h3
  exact ⟨by simp [UuidResolverActor.handle_create, hval], rfl⟩

/-- Claim C1, witness: `create("bad name!")` on the empty store fails with
`BadlyFormatted`, while `create("")` succeeds. -/
theorem C1_create_rejects_bad_char_witness :
    UuidResolverActor.handle_create [] "bad name!" 0
      = (Except.error (UuidError.BadlyFormatted "bad name!"), []) ∧
    (UuidResolverActor.handle_create [] "" 0).1 = Except.ok 0 :=
  C1_create_rejects_bad_char "bad name!" ' ' (by decide) (by decide)
    (by decide) (by decide) [] 0

/-- Claim C2, counterexample: the claim states that after any sequence of
operations no two registered names share an identifier; but starting from
the empty store, `insert("a", 0)` followed by `insert("b", 0)` registers
two distinct names with the same identifier. -/
theorem C2_counterexample_insert_duplicates :
    ¬ StoreInjective (run [] [(Msg.insert "a" 0, 5), (Msg.insert "b" 0, 7)]) := by
  decide

/-- Claim C2 (amended): after any sequence of operations the persisted
mapping remains a map with pairwise distinct names (a function from
name to identifier); injectivity of that map is preserved by create
(whose minted identifier is fresh), get, delete and list, but an insert
may store under a second name an identifier already held by another
name. -/
theorem C2_injectivity_preservation (db : Store)
    (hwf : WellFormed db) (hinj : StoreInjective db) :
    (∀ msgs, WellFormed (run db msgs)) ∧
    (∀ n fresh, (∀ p ∈ db, p.2 ≠ fresh) →
      StoreInjective (step db fresh (Msg.create n))) ∧
    (∀ n fresh, StoreInjective (step db fresh (Msg.get n))) ∧
    (∀ n fresh, StoreInjective (step db fresh (Msg.delete n))) ∧
    (∀ fresh, StoreInjective (step db fresh Msg.list)) := by
  refine ⟨fun msgs => wellFormed_run db msgs hwf, ?_,
          fun n fresh => hinj, ?_, fun fresh => hinj⟩
  · intro n fresh hfresh
    by_cases hv : is_index_uid_valid n
    · cases hg : dbGet db n with
      | some u0 =>
        simpa [step, UuidResolverActor.handle_create, hv,
               HeedUuidStore.create_uuid, hg] using hinj
      | none =>
        simpa [step, UuidResolverActor.handle_create, hv,
               HeedUuidStore.create_uuid, hg]
          using storeInjective_dbPut_fresh db n fresh hinj hfresh
    · simpa [step, UuidResolverActor.handle_create, hv] using hinj
  · intro n fresh
    cases hg : dbGet db n with
    | some u0 =>
      simpa [step, UuidResolverActor.handle_delete, HeedUuidStore.delete, hg]
        using storeInjective_dbDelete db n hinj
    | none =>
      simpa [step, UuidResolverActor.handle_delete, HeedUuidStore.delete, hg] using hinj

/-- Claim C2, witness: from the injective one-entry store, a create whose
minted identifier is fresh keeps the mapping injective. -/
theorem C2_injectivity_preservation_witness :
    StoreInjective (step [("a", 1)] 2 (Msg.create "b")) :=
  (C2_injectivity_preservation [("a", 1)] (by decide) (by decide)).2.1 "b" 2 (by decide)

/-- Claim C3: for a valid, unregistered name, the first create succeeds; a
second create of the same name fails with `NameAlreadyExist` and leaves
the store unchanged, and a subsequent get still returns the identifier
minted by the first create. -/
theorem C3_create_twice (db : Store) (n : String) (u1 u2 : Uuid)
    (hv : is_index_uid_valid n = true) (hfresh : dbGet db n = none) :
    (UuidResolverActor.handle_create db n u1).1 = Except.ok u1 ∧
    UuidResolverActor.handle_create (UuidResolverActor.handle_create db n u1).2 n u2
      = (Except.error UuidError.NameAlreadyExist,
         (UuidResolverActor.handle_create db n u1).2) ∧
    UuidResolverActor.handle_get (UuidResolverActor.handle_create db n u1).2 n
      = Except.ok u1 := by
  have h1 : UuidResolverActor.handle_create db n u1 = (Except.ok u1, dbPut db n u1) := by
    simp [UuidResolverActor.handle_create, hv, HeedUuidStore.create_uuid, hfresh]
  rw [h1]
  refine ⟨rfl, ?_, ?_⟩
  · simp [UuidResolverActor.handle_create, hv, HeedUuidStore.create_uuid, dbGet_dbPut_same]
  · simp [UuidResolverActor.handle_get, HeedUuidStore.get_uuid, dbGet_dbPut_same]

/-- Claim C3, witness at `n = "a"` on the empty store. -/
theorem C3_create_twice_witness :
    (UuidResolverActor.handle_create [] "a" 3).1 = Except.ok 3 ∧
    UuidResolverActor.handle_create (UuidResolverActor.handle_create [] "a" 3).2 "a" 5
      = (Except.error UuidError.NameAlreadyExist,
         (UuidResolverActor.handle_create [] "a" 3).2) ∧
    UuidResolverActor.handle_get (UuidResolverActor.handle_create [] "a" 3).2 "a"
      = Except.ok 3 :=
  C3_create_twice [] "a" 3 5 (by decide) rfl

/-- Claim C4: for a valid name not yet registered, create succeeds returning
the minted identifier, and an immediately following get returns that same
identifier. -/
theorem C4_create_then_get (db : Store) (n : String) (fresh : Uuid)
    (hv : is_index_uid_valid n = true) (hfresh : dbGet db n = none) :
    (UuidResolverActor.handle_create db n fresh).1 = Except.ok fresh ∧
    UuidResolverActor.handle_get (UuidResolverActor.handle_create db n fresh).2 n
      = Except.ok fresh := by
  have h1 : UuidResolverActor.handle_create db n fresh
      = (Except.ok fresh, dbPut db n fresh) := by
    simp [UuidResolverActor.handle_create, hv, HeedUuidStore.create_uuid, hfresh]
  rw [h1]
  exact ⟨rfl, by simp [UuidResolverActor.handle_get, HeedUuidStore.get_uuid, dbGet_dbPut_same]⟩

/-- Claim C4, witness at `n = "doc-s_1"` on the empty store. -/
theorem C4_create_then_get_witness :
    (UuidResolverActor.handle_create [] "doc-s_1" 9).1 = Except.ok 9 ∧
    UuidResolverActor.handle_get (UuidResolverActor.handle_create [] "doc-s_1" 9).2 "doc-s_1"
      = Except.ok 9 :=
  C4_create_then_get [] "doc-s_1" 9 (by decide) rfl

/-- Claim C5: for a valid name, insert always succeeds (returning no
conflict), a following get returns exactly the inserted identifier, and a
second insert overwrites it (last write wins). -/
theorem C5_insert_last_write_wins (db : Store) (n : String) (id id2 : Uuid)
    (hv : is_index_uid_valid n = true) :
    UuidResolverActor.handle_insert db n id = (Except.ok (), dbPut db n id) ∧
    UuidResolverActor.handle_get (UuidResolverActor.handle_insert db n id).2 n
      = Except.ok id ∧
    UuidResolverActor.handle_get
      (UuidResolverActor.handle_insert
        (UuidResolverActor.handle_insert db n id).2 n id2).2 n
      = Except.ok id2 := by
  have h1 : UuidResolverActor.handle_insert db n id = (Except.ok (), dbPut db n id) := by
    simp [UuidResolverActor.handle_insert, hv, HeedUuidStore.insert]
  have h2 : UuidResolverActor.handle_insert (dbPut db n id) n id2
      = (Except.ok (), dbPut (dbPut db n id) n id2) := by
    simp [UuidResolverActor.handle_insert, hv, HeedUuidStore.insert]
  refine ⟨h1, ?_, ?_⟩
  · rw [h1]
    simp [UuidResolverActor.handle_get, HeedUuidStore.get_uuid, dbGet_dbPut_same]
  · rw [h1]
    rw [show UuidResolverActor.handle_insert
          ((Except.ok (), dbPut db n id) : Except UuidError Unit × Store).2 n id2
          = (Except.ok (), dbPut (dbPut db n id) n id2) from h2]
    simp [UuidResolverActor.handle_get, HeedUuidStore.get_uuid, dbGet_dbPut_same]

/-- Claim C5, witness: insert twice under `"a"` on a store already holding
`"a"`, observing overwrite semantics. -/
theorem C5_insert_last_write_wins_witness :
    UuidResolverActor.handle_insert [("a", 1)] "a" 4
      = (Except.ok (), dbPut [("a", 1)] "a" 4) ∧
    UuidResolverActor.handle_get (UuidResolverActor.handle_insert [("a", 1)] "a" 4).2 "a"
      = Except.ok 4 ∧
    UuidResolverActor.handle_get
      (UuidResolverActor.handle_insert
        (UuidResolverActor.handle_insert [("a", 1)] "a" 4).2 "a" 6).2 "a"
      = Except.ok 6 :=
  C5_insert_last_write_wins [("a", 1)] "a" 4 6 (by decide)

/-- Claim C6: on a well formed store, if `n` is registered then delete
removes its entry and returns the stored identifier (afterwards the name
no longer resolves); if `n` is not registered, delete fails with
`UnexistingIndex(n)` and the store is unchanged. -/
theorem C6_delete_spec (db : Store) (n : String) (hwf : WellFormed db) :
    (∀ u, dbGet db n = some u →
      UuidResolverActor.handle_delete db n = (Except.ok u, dbDelete db n) ∧
      dbGet (UuidResolverActor.handle_delete db n).2 n = none) ∧
    (dbGet db n = none →
      UuidResolverActor.handle_delete db n
        = (Except.error (UuidError.UnexistingIndex n), db)) := by
  constructor
  · intro u hu
    have h1 : UuidResolverActor.handle_delete db n = (Except.ok u, dbDelete db n) := by
      simp [UuidResolverActor.handle_delete, HeedUuidStore.delete, hu]
    refine ⟨h1, ?_⟩
    rw [h1]
    exact dbGet_dbDelete_same db n hwf
  · intro hnone
    simp [UuidResolverActor.handle_delete, HeedUuidStore.delete, hnone]

/-- Claim C6, witness: deleting the registered name `"a"` returns its
identifier and removes the entry. -/
theorem C6_delete_spec_witness :
    UuidResolverActor.handle_delete [("a", 4)] "a"
      = (Except.ok 4, dbDelete [("a", 4)] "a") :=
  (((C6_delete_spec [("a", 4)] "a" (by decide)).1) 4 rfl).1

/-- Claim C7: a name containing a character outside ASCII alphanumeric,
hyphen, underscore is rejected by both create and insert with
`BadlyFormatted`, and the store after the failed call equals the store
before it. -/
theorem C7_invalid_name_rejected (name : String) (c : Char) (hc : c ∈ name.toList)
    (h1 : c.isAlphanum = false) (h2 : c ≠ '-') (h3 : c ≠ '_')
    (db : Store) (fresh u : Uuid) :
    UuidResolverActor.handle_create db name fresh
      = (Except.error (UuidError.BadlyFormatted name), db) ∧
    UuidResolverActor.handle_insert db name u
      = (Except.error (UuidError.BadlyFormatted name), db) := by
  have hval := is_index_uid_valid_eq_false_of_bad_char name c hc h1 h2 h3
  exact ⟨by simp [UuidResolverActor.handle_create, hval],
         by simp [UuidResolverActor.handle_insert, hval]⟩

/-- Claim C7, witness: `"bad name!"` is rejected by both create and insert
on a nonempty store, which is left unchanged. -/
theorem C7_invalid_name_rejected_witness :
    UuidResolverActor.handle_create [("a", 1)] "bad name!" 7
      = (Except.error (UuidError.BadlyFormatted "bad name!"), [("a", 1)]) ∧
    UuidResolverActor.handle_insert [("a", 1)] "bad name!" 8
      = (Except.error (UuidError.BadlyFormatted "bad name!"), [("a", 1)]) :=
  C7_invalid_name_rejected "bad name!" '!' (by decide) (by decide) (by decide)
    (by decide) [("a", 1)] 7 8

/-- Claim C8: get and list leave the store exactly as it was, and
create/delete/insert on name `n` leave the record of every other name `m`
unchanged. -/
theorem C8_read_only_and_frame (db : Store) (n m : String) (fresh u : Uuid)
    (hm : m ≠ n) :
    step db fresh (Msg.get n) = db ∧
    step db fresh Msg.list = db ∧
    dbGet (step db fresh (Msg.create n)) m = dbGet db m ∧
    dbGet (step db fresh (Msg.delete n)) m = dbGet db m ∧
    dbGet (step db fresh (Msg.insert n u)) m = dbGet db m := by
  refine ⟨rfl, rfl, ?_, ?_, ?_⟩
  · by_cases hv : is_index_uid_valid n
    · cases hg : dbGet db n with
      | some u0 =>
        simp [step, UuidResolverActor.handle_create, hv, HeedUuidStore.create_uuid, hg]
      | none =>
        simp [step, UuidResolverActor.handle_create, hv, HeedUuidStore.create_uuid, hg,
              dbGet_dbPut_other db n m fresh hm]
    · simp [step, UuidResolverActor.handle_create, hv]
  · cases hg : dbGet db n with
    | some u0 =>
      simp [step, UuidResolverActor.handle_delete, HeedUuidStore.delete, hg,
            dbGet_dbDelete_other db n m hm]
    | none =>
      simp [step, UuidResolverActor.handle_delete, HeedUuidStore.delete, hg]
  · by_cases hv : is_index_uid_valid n
    · simp [step, UuidResolverActor.handle_insert, hv, HeedUuidStore.insert,
            dbGet_dbPut_other db n m u hm]
    · simp [step, UuidResolverActor.handle_insert, hv]

/-- Claim C8, witness: creating `"a"` does not disturb the record of
`"b"`. -/
theorem C8_read_only_and_frame_witness :
    dbGet (step [("b", 1)] 2 (Msg.create "a")) "b" = dbGet [("b", 1)] "b" :=
  (C8_read_only_and_frame [("b", 1)] "a" "b" 2 7 (by decide)).2.2.1

/-- Claim C9: get and delete perform no name-format validation: neither ever
fails with `BadlyFormatted`, and on an unregistered name both fail with
`UnexistingIndex(n)` (delete leaving the store unchanged). -/
theorem C9_get_delete_no_validation (db : Store) (n : String) :
    (∀ s, UuidResolverActor.handle_get db n ≠ Except.error (UuidError.BadlyFormatted s)) ∧
    (∀ s, (UuidResolverActor.handle_delete db n).1
      ≠ Except.error (UuidError.BadlyFormatted s)) ∧
    (dbGet db n = none →
      UuidResolverActor.handle_get db n = Except.error (UuidError.UnexistingIndex n) ∧
      UuidResolverActor.handle_delete db n
        = (Except.error (UuidError.UnexistingIndex n), db)) := by
  refine ⟨?_, ?_, ?_⟩
  · intro s h
    cases hg : dbGet db n <;>
      simp [UuidResolverActor.handle_get, HeedUuidStore.get_uuid, hg] at h
  · intro s h
    cases hg : dbGet db n <;>
      simp [UuidResolverActor.handle_delete, HeedUuidStore.delete, hg] at h
  · intro hnone
    exact ⟨by simp [UuidResolverActor.handle_get, HeedUuidStore.get_uuid, hnone],
           by simp [UuidResolverActor.handle_delete, HeedUuidStore.delete, hnone]⟩

/-- Claim C10: after `insert(n, id)`, a create of the same valid name fails
with `NameAlreadyExist` and leaves the store unchanged, and get still
returns `id`: conflict detection does not distinguish entries minted by
create from entries written by insert. -/
theorem C10_insert_then_create_conflict (db : Store) (n : String) (id fresh : Uuid)
    (hv : is_index_uid_valid n = true) :
    UuidResolverActor.handle_create (UuidResolverActor.handle_insert db n id).2 n fresh
      = (Except.error UuidError.NameAlreadyExist,
         (UuidResolverActor.handle_insert db n id).2) ∧
    UuidResolverActor.handle_get (UuidResolverActor.handle_insert db n id).2 n
      = Except.ok id := by
  have h1 : (UuidResolverActor.handle_insert db n id).2 = dbPut db n id := by
    simp [UuidResolverActor.handle_insert, hv, HeedUuidStore.insert]
  rw [h1]
  constructor
  · simp [UuidResolverActor.handle_create, hv, HeedUuidStore.create_uuid, dbGet_dbPut_same]
  · simp [UuidResolverActor.handle_get, HeedUuidStore.get_uuid, dbGet_dbPut_same]

/-- Claim C10, witness: `insert("a", 4)` then `create("a")` conflicts and
`get("a")` still returns 4. -/
theorem C10_insert_then_create_conflict_witness :
    UuidResolverActor.handle_create (UuidResolverActor.handle_insert [] "a" 4).2 "a" 9
      = (Except.error UuidError.NameAlreadyExist,
         (UuidResolverActor.handle_insert [] "a" 4).2) ∧
    UuidResolverActor.handle_get (UuidResolverActor.handle_insert [] "a" 4).2 "a"
      = Except.ok 4 :=
  C10_insert_then_create_conflict [] "a" 4 9 (by decide)

end UuidResolver
